import Mathlib

/-!
Verification of `minilogue-manipulation` (src/main.py, src/models.py).

The program bridges a Max/MSP-style audio environment and a logging process
over OSC/UDP.  An inbound listener handles `/synth_settings` messages and
appends them as CSV rows (`log_synth_settings`), while the main path sends
`max_randomizations` random integers in [1,100] to `/random`
(the command-emitter loop in `main`).

The embedding below models, faithfully to the Python source:
  * `Config` (src/models.py) — the pydantic settings object;
  * Python `dict(zip(...))` insertion/update semantics (`pyDict`);
  * `csv.DictWriter` row construction with `restval=""` defaults and the
    merged dict `{"Timestamp": ts, **settings_dict}`;
  * `log_synth_settings` including its `try/except` structure, with file
    I/O success or failure supplied by an oracle flag;
  * the emitter loop in `main` as an event trace (send attempts and
    `time.sleep` waits), with `random.randint` modelled by an explicit
    entropy stream and per-send failures by an oracle;
  * the process-level behaviour of the daemon listener thread.
-/

/-- Mirror of `Config` in src/models.py (pydantic `BaseModel`). -/
structure Config where
  synth_params : List String
  max_ip : String
  max_send_port : Int
  max_receive_port : Int
  max_randomizations : Int
  log_file_path : String
deriving Repr, DecidableEq

/-! ## Python dict semantics

`dict(zip(ks, vs))` in Python builds an insertion-ordered map in which a
later binding of an existing key overwrites its value in place.  We model
a dict as an association list with unique keys kept in insertion order. -/

/-- One Python dict assignment `d[k] = v`: update in place if `k` is
present, else append the new binding. -/
def dictInsert (d : List (String × α)) (k : String) (v : α) : List (String × α) :=
  if d.any (fun p => p.1 = k) then
    d.map (fun p => if p.1 = k then (k, v) else p)
  else
    d ++ [(k, v)]

/-- `dict(pairs)`: fold the assignments left to right. -/
def pyDict (ps : List (String × α)) : List (String × α) :=
  ps.foldl (fun d p => dictInsert d p.1 p.2) []

/-- `d.get(k)` on the association-list model. -/
def pyGet (d : List (String × α)) (k : String) : Option α :=
  (d.find? (fun p => p.1 = k)).map (fun p => p.2)

/-! ## CSV rows

`csv.DictWriter` writes, for each field name in order, the value bound to
that name in the row dict, or `restval` (the empty string) when absent.
The row dict passed by the code is `{"Timestamp": timestamp, **settings_dict}`:
the literal `"Timestamp"` binding comes first, so a synth parameter that is
itself named `"Timestamp"` would overwrite it. -/

/-- A rendered CSV cell: empty (missing value), the timestamp string, or a
received parameter value. -/
inductive Cell (α : Type) where
  | empty : Cell α
  | str : String → Cell α
  | val : α → Cell α
deriving Repr, DecidableEq

/-- A line of the log file: the header line or a data line. -/
inductive Row (α : Type) where
  | header : List String → Row α
  | data : List (Cell α) → Row α
deriving Repr, DecidableEq

/-- `fieldnames = ["Timestamp"] + config.synth_params` (src/main.py:62). -/
def fieldnames (c : Config) : List String :=
  "Timestamp" :: c.synth_params

/-- The row dict `{"Timestamp": timestamp, **settings_dict}` rendered
against the field names: a bound parameter value wins (including over the
`"Timestamp"` literal, per Python dict-literal semantics), the
`Timestamp` field otherwise renders the timestamp, and a missing field
renders `restval = ""`. -/
def rowCells (c : Config) (ts : String) (d : List (String × α)) : List (Cell α) :=
  (fieldnames c).map (fun f =>
    match pyGet d f with
    | some v => Cell.val v
    | none => if f = "Timestamp" then Cell.str ts else Cell.empty)

/-- `settings = list(args)[1:]; dict(zip(config.synth_params, settings))`
(src/main.py:56,59). -/
def settingsDict (c : Config) (args : List α) : List (String × α) :=
  pyDict (c.synth_params.zip (args.drop 1))

/-! ## The settings logger -/

/-- Append-mode write of one record (src/main.py:61-66): `f.tell() == 0`
holds exactly when the file is empty, in which case the header is written
first; then one data row is written. -/
def logAppend (c : Config) (ts : String) (d : List (String × α))
    (file : List (Row α)) : List (Row α) :=
  (if file.isEmpty then file ++ [Row.header (fieldnames c)] else file)
    ++ [Row.data (rowCells c ts d)]

/-- The body of the `try` block of `log_synth_settings`: builds the record
and performs the file I/O, which the oracle `ioOk` lets succeed or fail
with an `IOError`. -/
def logSynthSettingsRaw (c : Config) (args : List α) (ts : String)
    (ioOk : Bool) (file : List (Row α)) : Except String (List (Row α)) :=
  let d := settingsDict c args
  if ioOk then Except.ok (logAppend c ts d file) else Except.error "IOError"

/-- Outcome of one `log_synth_settings` call: the record was logged, or
the I/O fault was reported via the logger and the record dropped. -/
inductive LogOutcome where
  | logged : LogOutcome
  | dropped : LogOutcome
deriving Repr, DecidableEq

/-- What a call into the handler does from the caller's point of view:
either it returns normally (with the new file state and an outcome) or an
exception escapes. -/
inductive HandlerResult (α : Type) where
  | returned : List (Row α) → LogOutcome → HandlerResult α
  | raised : String → HandlerResult α
deriving Repr, DecidableEq

/-- `log_synth_settings` (src/main.py:45-72): the `try/except` wrapper
around the raw body.  An `IOError` is caught, reported via
`logger.error`, and the record dropped (file unchanged); the `address`
argument is received but unused. -/
def log_synth_settings (c : Config) (address : String) (args : List α)
    (ts : String) (ioOk : Bool) (file : List (Row α)) : HandlerResult α :=
  let _ := address
  match logSynthSettingsRaw c args ts ioOk file with
  | Except.ok f => HandlerResult.returned f LogOutcome.logged
  | Except.error _ => HandlerResult.returned file LogOutcome.dropped

/-- File state after one handler call (exceptions cannot escape, so this
is total). -/
def fileAfter (c : Config) (address : String) (args : List α)
    (ts : String) (ioOk : Bool) (file : List (Row α)) : List (Row α) :=
  match log_synth_settings c address args ts ioOk file with
  | HandlerResult.returned f _ => f
  | HandlerResult.raised _ => file

/-- Outcome of one handler call. -/
def outcomeAfter (c : Config) (address : String) (args : List α)
    (ts : String) (ioOk : Bool) (file : List (Row α)) : LogOutcome :=
  match log_synth_settings c address args ts ioOk file with
  | HandlerResult.returned _ o => o
  | HandlerResult.raised _ => LogOutcome.dropped

/-- Run a sequence of successful append operations (timestamp, args per
message) starting from the given file state. -/
def runAppends (c : Config) (items : List (String × List α))
    (file : List (Row α)) : List (Row α) :=
  items.foldl (fun f p => fileAfter c "/synth_settings" p.2 p.1 true f) file

/-- The data row a successfully handled message produces. -/
def dataRowOf (c : Config) (p : String × List α) : Row α :=
  Row.data (rowCells c p.1 (settingsDict c p.2))

/-- Whether a log line is the header line. -/
def isHeader : Row α → Bool
  | Row.header _ => true
  | Row.data _ => false

/-- Number of cells in a log line. -/
def rowLen : Row α → Nat
  | Row.header cols => cols.length
  | Row.data cells => cells.length

/-! ## The command emitter (main loop, src/main.py:117-133)

`random.randint(1, 100)` is modelled by an explicit entropy stream
`rng : Nat → Nat` (one raw draw per iteration) reduced into the requested
range; per-send network failures are decided by an oracle
`sendFails : Nat → Bool` indexed by iteration.  The loop body is
`try: client.send_message("/random", v); time.sleep(0.01) except: log`,
so a failing send skips that iteration's 10 ms sleep. -/

/-- `random.randint(lo, hi)`: a uniformly distributed integer in
`[lo, hi]`, here drawn by reducing one raw entropy word. -/
def randint (lo hi : Int) (raw : Nat) : Int :=
  lo + Int.ofNat (raw % (hi - lo + 1).toNat)

/-- Observable events of the main path: a send that returned, a send that
raised (and was reported via `logger.error`), and a `time.sleep` of the
given number of milliseconds. -/
inductive Ev where
  | sendOk : String → Int → Ev
  | sendErr : String → Int → Ev
  | wait : Nat → Ev
deriving Repr, DecidableEq

/-- One iteration of the emitter loop (src/main.py:117-129): draw the
random value, attempt the send; on success sleep 10 ms, on failure the
exception skips the sleep and is caught and reported. -/
def emitIter (rng : Nat → Nat) (sendFails : Nat → Bool) (i : Nat) : List Ev :=
  let v := randint 1 100 (rng i)
  if sendFails i then [Ev.sendErr "/random" v]
  else [Ev.sendOk "/random" v, Ev.wait 10]

/-- The whole main path after startup: `for i in range(n)` of loop
iterations, then the final `time.sleep(0.5)` drain (src/main.py:133). -/
def emitterTrace (n : Nat) (rng : Nat → Nat) (sendFails : Nat → Bool) : List Ev :=
  ((List.range n).map (emitIter rng sendFails)).flatten ++ [Ev.wait 500]

/-- The main path's trace for a configuration: `range` of a negative
`max_randomizations` is empty, hence `Int.toNat`. -/
def mainTrace (c : Config) (rng : Nat → Nat) (sendFails : Nat → Bool) : List Ev :=
  emitterTrace c.max_randomizations.toNat rng sendFails

/-- The send operations (successful or failing) of a trace, in order,
as (route, value) pairs. -/
def sendAttempts (tr : List Ev) : List (String × Int) :=
  tr.filterMap (fun e =>
    match e with
    | Ev.sendOk r v => some (r, v)
    | Ev.sendErr r v => some (r, v)
    | Ev.wait _ => none)

/-! ## Process-level model (src/main.py:75-140)

`start_osc_server` catches a bind `OSError`, reports it and re-raises —
but it runs as the target of a `threading.Thread(daemon=True)`, so the
re-raised exception terminates only that background thread.  `main` never
joins the thread; its own path is the emitter loop (whose send faults are
caught) followed by the drain sleep, after which the process exits
normally with status 0. -/

/-- Fate of the listener's background thread. -/
inductive ThreadOutcome where
  | serving : ThreadOutcome
  | crashed : String → ThreadOutcome
deriving Repr, DecidableEq

/-- `start_osc_server` as run inside the daemon thread: a failing bind is
reported and re-raised, killing the thread; otherwise the server serves
forever. -/
def listenerThread (bindOk : Bool) : ThreadOutcome :=
  if bindOk then ThreadOutcome.serving else ThreadOutcome.crashed "OSError"

/-- Result of one whole process run (configuration already loaded). -/
structure ProcessResult where
  listener : ThreadOutcome
  trace : List Ev
  exitCode : Nat
deriving Repr, DecidableEq

/-- `main` (src/main.py:105-140) after a successful configuration load:
the listener thread is started as a daemon and abandoned; the main path
runs the emitter loop and the drain sleep and the process exits 0.  No
exception of the listener thread reaches the main thread. -/
def runProcess (c : Config) (rng : Nat → Nat) (sendFails : Nat → Bool)
    (bindOk : Bool) : ProcessResult :=
  { listener := listenerThread bindOk
  , trace := mainTrace c rng sendFails
  , exitCode := 0 }

/-! ## Helper lemmas on the dict model -/

/-- Keys of an association list, in order. -/
def keysOf (d : List (String × α)) : List String :=
  d.map Prod.fst

/-- Values of an association list, in order. -/
def valsOf (d : List (String × α)) : List α :=
  d.map Prod.snd

lemma dictInsert_of_not_mem {d : List (String × α)} {k : String} {v : α}
    (h : k ∉ keysOf d) : dictInsert d k v = d ++ [(k, v)] := by
  unfold dictInsert
  rw [if_neg]
  simp only [List.any_eq_true, decide_eq_true_eq, not_exists, not_and]
  intro p hp hpk
  exact h (List.mem_map.mpr ⟨p, hp, hpk⟩)

lemma foldl_dictInsert_eq_append (ps : List (String × α)) :
    ∀ acc : List (String × α), (keysOf ps).Nodup →
      (∀ k ∈ keysOf ps, k ∉ keysOf acc) →
      ps.foldl (fun d p => dictInsert d p.1 p.2) acc = acc ++ ps := by
  induction ps with
  | nil => intro acc _ _; simp
  | cons p ps ih =>
    intro acc hnd hdisj
    obtain ⟨k, v⟩ := p
    have hk : k ∉ keysOf acc := hdisj k (by simp [keysOf])
    have hstep : dictInsert acc k v = acc ++ [(k, v)] := dictInsert_of_not_mem hk
    have hnd' : (keysOf ps).Nodup := by
      simpa [keysOf] using hnd.of_cons
    have hknotin : k ∉ keysOf ps := by
      have := hnd
      simp only [keysOf, List.map_cons, List.nodup_cons] at this
      exact this.1
    have hdisj' : ∀ k' ∈ keysOf ps, k' ∉ keysOf (acc ++ [(k, v)]) := by
      intro k' hk' hmem
      have hsplit : k' ∈ keysOf acc ∨ k' = k := by
        simpa [keysOf] using hmem
      have hk'cons : k' ∈ keysOf ((k, v) :: ps) := by
        simp only [keysOf, List.map_cons]
        exact List.mem_cons_of_mem _ hk'
      rcases hsplit with h1 | h2
      · exact hdisj k' hk'cons h1
      · exact hknotin (h2 ▸ hk')
    calc ((k, v) :: ps).foldl (fun d p => dictInsert d p.1 p.2) acc
        = ps.foldl (fun d p => dictInsert d p.1 p.2) (acc ++ [(k, v)]) := by
          simp [List.foldl_cons, hstep]
      _ = (acc ++ [(k, v)]) ++ ps := ih (acc ++ [(k, v)]) hnd' hdisj'
      _ = acc ++ ((k, v) :: ps) := by simp

/-- Building a Python dict from pairs with pairwise-distinct keys is the
identity on the pair list. -/
lemma pyDict_eq_self {ps : List (String × α)} (h : (keysOf ps).Nodup) :
    pyDict ps = ps := by
  simpa using foldl_dictInsert_eq_append ps [] h (by simp [keysOf])

lemma keysOf_zip (ks : List String) (vs : List α) :
    keysOf (ks.zip vs) = ks.take vs.length := by
  induction ks generalizing vs with
  | nil => simp [keysOf]
  | cons k ks ih =>
    cases vs with
    | nil => simp [keysOf]
    | cons v vs => simp [keysOf, List.zip_cons_cons, List.take_succ_cons] at ih ⊢; exact ih vs

lemma valsOf_zip (ks : List String) (vs : List α) :
    valsOf (ks.zip vs) = vs.take ks.length := by
  induction ks generalizing vs with
  | nil => simp [valsOf]
  | cons k ks ih =>
    cases vs with
    | nil => simp [valsOf]
    | cons v vs => simp [valsOf, List.zip_cons_cons, List.take_succ_cons] at ih ⊢; exact ih vs

lemma keysOf_zip_nodup {ks : List String} (vs : List α) (h : ks.Nodup) :
    (keysOf (ks.zip vs)).Nodup := by
  rw [keysOf_zip]
  exact List.Nodup.sublist (List.take_sublist vs.length ks) h

lemma pyGet_cons_self (d : List (String × α)) (k : String) (v : α) :
    pyGet ((k, v) :: d) k = some v := by
  simp [pyGet, List.find?_cons]

lemma pyGet_cons_ne (d : List (String × α)) {k k' : String} (v : α)
    (h : k ≠ k') : pyGet ((k, v) :: d) k' = pyGet d k' := by
  unfold pyGet
  rw [List.find?_cons_of_neg]
  simp [h]

lemma pyGet_eq_none {d : List (String × α)} {k : String}
    (h : k ∉ keysOf d) : pyGet d k = none := by
  induction d with
  | nil => rfl
  | cons p d ih =>
    obtain ⟨k', v⟩ := p
    have hne : k' ≠ k := by
      intro he; exact h (by simp [keysOf, he])
    rw [pyGet_cons_ne d v hne]
    exact ih (fun hm => h (by simp [keysOf] at hm ⊢; exact Or.inr hm))

lemma cells_of_zip (ts : String) (ks : List String) (vs : List α)
    (hnd : ks.Nodup) (hlen : vs.length = ks.length) :
    ks.map (fun f =>
      match pyGet (ks.zip vs) f with
      | some v => Cell.val v
      | none => if f = "Timestamp" then Cell.str ts else Cell.empty)
    = vs.map Cell.val := by
  induction ks generalizing vs with
  | nil =>
    cases vs with
    | nil => simp
    | cons v vs => simp at hlen
  | cons k ks ih =>
    cases vs with
    | nil => simp at hlen
    | cons v vs =>
      have hk : k ∉ ks := (List.nodup_cons.mp hnd).1
      have hnd' : ks.Nodup := (List.nodup_cons.mp hnd).2
      have hlen' : vs.length = ks.length := by simpa using hlen
      simp only [List.zip_cons_cons, List.map_cons]
      rw [pyGet_cons_self]
      have htail : ∀ f ∈ ks,
          (match pyGet ((k, v) :: ks.zip vs) f with
          | some w => Cell.val w
          | none => if f = "Timestamp" then Cell.str ts else Cell.empty)
          = (match pyGet (ks.zip vs) f with
          | some w => Cell.val w
          | none => if f = "Timestamp" then Cell.str ts else Cell.empty) := by
        intro f hf
        rw [pyGet_cons_ne (ks.zip vs) v (fun he => hk (by rw [he]; exact hf))]
      rw [List.map_congr_left htail, ih vs hnd' hlen']

lemma settingsDict_eq_zip (c : Config) (args : List α)
    (hnd : c.synth_params.Nodup) :
    settingsDict c args = c.synth_params.zip (args.drop 1) := by
  unfold settingsDict
  exact pyDict_eq_self (keysOf_zip_nodup (args.drop 1) hnd)

lemma rowCells_of_zip (c : Config) (ts : String) (vs : List α)
    (hnd : c.synth_params.Nodup) (hts : "Timestamp" ∉ c.synth_params)
    (hlen : vs.length = c.synth_params.length) :
    rowCells c ts (c.synth_params.zip vs) = Cell.str ts :: vs.map Cell.val := by
  unfold rowCells fieldnames
  simp only [List.map_cons]
  have h0 : pyGet (c.synth_params.zip vs) "Timestamp" = none := by
    apply pyGet_eq_none
    rw [keysOf_zip]
    exact fun hm => hts (List.mem_of_mem_take hm)
  rw [h0, cells_of_zip ts c.synth_params vs hnd hlen]
  simp

lemma fileAfter_ioOk (c : Config) (address : String) (args : List α)
    (ts : String) (file : List (Row α)) :
    fileAfter c address args ts true file
      = logAppend c ts (settingsDict c args) file := by
  rfl

lemma fileAfter_ioFail (c : Config) (address : String) (args : List α)
    (ts : String) (file : List (Row α)) :
    fileAfter c address args ts false file = file := by
  rfl

lemma logAppend_of_ne_nil (c : Config) (ts : String) (d : List (String × α))
    (file : List (Row α)) (h : file ≠ []) :
    logAppend c ts d file = file ++ [Row.data (rowCells c ts d)] := by
  unfold logAppend
  rw [if_neg]
  simpa using h

lemma runAppends_of_ne_nil (c : Config) (items : List (String × List α)) :
    ∀ file : List (Row α), file ≠ [] →
      runAppends c items file = file ++ items.map (dataRowOf c) := by
  induction items with
  | nil => intro file _; simp [runAppends]
  | cons p items ih =>
    intro file hne
    have hstep : fileAfter c "/synth_settings" p.2 p.1 true file
        = file ++ [dataRowOf c p] := by
      rw [fileAfter_ioOk, logAppend_of_ne_nil _ _ _ _ hne]; rfl
    have hne' : file ++ [dataRowOf c p] ≠ [] := by simp
    calc runAppends c (p :: items) file
        = runAppends c items (fileAfter c "/synth_settings" p.2 p.1 true file) := rfl
      _ = (file ++ [dataRowOf c p]) ++ items.map (dataRowOf c) := by
          rw [hstep]; exact ih _ hne'
      _ = file ++ (p :: items).map (dataRowOf c) := by simp

lemma runAppends_from_empty (c : Config) (p : String × List α)
    (items : List (String × List α)) :
    runAppends c (p :: items) ([] : List (Row α))
      = Row.header (fieldnames c) :: (p :: items).map (dataRowOf c) := by
  have hstep : fileAfter c "/synth_settings" p.2 p.1 true ([] : List (Row α))
      = [Row.header (fieldnames c), dataRowOf c p] := by
    rw [fileAfter_ioOk]; rfl
  calc runAppends c (p :: items) ([] : List (Row α))
      = runAppends c items (fileAfter c "/synth_settings" p.2 p.1 true []) := rfl
    _ = [Row.header (fieldnames c), dataRowOf c p] ++ items.map (dataRowOf c) := by
        rw [hstep]; exact runAppends_of_ne_nil c items _ (by simp)
    _ = Row.header (fieldnames c) :: (p :: items).map (dataRowOf c) := by simp

/-! ## Helper lemmas on the emitter trace -/

lemma randint_bounds (raw : Nat) :
    1 ≤ randint 1 100 raw ∧ randint 1 100 raw ≤ 100 := by
  unfold randint
  have h100 : ((100 : Int) - 1 + 1).toNat = 100 := by decide
  rw [h100]
  have hlt : raw % 100 < 100 := Nat.mod_lt raw (by decide)
  have hcast : Int.ofNat (raw % 100) = ((raw % 100 : Nat) : Int) := rfl
  rw [hcast]
  omega

lemma sendAttempts_append (a b : List Ev) :
    sendAttempts (a ++ b) = sendAttempts a ++ sendAttempts b := by
  unfold sendAttempts
  exact List.filterMap_append a b _

lemma sendAttempts_emitIter (rng : Nat → Nat) (sendFails : Nat → Bool) (i : Nat) :
    sendAttempts (emitIter rng sendFails i)
      = [("/random", randint 1 100 (rng i))] := by
  unfold emitIter sendAttempts
  cases sendFails i <;> simp

lemma sendAttempts_blocks (rng : Nat → Nat) (sendFails : Nat → Bool)
    (l : List Nat) :
    sendAttempts (((l.map (emitIter rng sendFails)).flatten) ++ [Ev.wait 500])
      = l.map (fun i => ("/random", randint 1 100 (rng i))) := by
  induction l with
  | nil => rfl
  | cons i l ih =>
    simp only [List.map_cons, List.flatten_cons, List.append_assoc]
    rw [sendAttempts_append, sendAttempts_emitIter]
    rw [ih]
    rfl

lemma sendAttempts_emitterTrace (n : Nat) (rng : Nat → Nat)
    (sendFails : Nat → Bool) :
    sendAttempts (emitterTrace n rng sendFails)
      = (List.range n).map (fun i => ("/random", randint 1 100 (rng i))) := by
  unfold emitterTrace
  exact sendAttempts_blocks rng sendFails (List.range n)

/-! ## Helper checker for inter-send spacing (claim about sleeps) -/

/-- Whether the first event of a trace is the 10 ms inter-send sleep. -/
def headIsWait10 : List Ev → Bool
  | Ev.wait m :: _ => m == 10
  | _ => false

/-- Checks, along a trace, that every successful send is immediately
followed by the 10 ms sleep and that no failing send is followed by one. -/
def spacingOk : List Ev → Bool
  | [] => true
  | Ev.sendOk _ _ :: tl => headIsWait10 tl && spacingOk tl
  | Ev.sendErr _ _ :: tl => (!headIsWait10 tl) && spacingOk tl
  | Ev.wait _ :: tl => spacingOk tl

lemma spacingOk_tail (e : Ev) (tl : List Ev)
    (h : spacingOk (e :: tl) = true) : spacingOk tl = true := by
  cases e <;> simp [spacingOk] at h <;> tauto

lemma headIsWait10_blocks (rng : Nat → Nat) (sendFails : Nat → Bool)
    (l : List Nat) :
    headIsWait10 (((l.map (emitIter rng sendFails)).flatten) ++ [Ev.wait 500])
      = false := by
  cases l with
  | nil => rfl
  | cons i l =>
    simp only [List.map_cons, List.flatten_cons, List.append_assoc]
    unfold emitIter
    cases sendFails i <;> simp [headIsWait10]

lemma spacingOk_cons_sendOk (r : String) (v : Int) (tl : List Ev) :
    spacingOk (Ev.sendOk r v :: tl) = (headIsWait10 tl && spacingOk tl) := rfl

lemma spacingOk_cons_sendErr (r : String) (v : Int) (tl : List Ev) :
    spacingOk (Ev.sendErr r v :: tl) = ((!headIsWait10 tl) && spacingOk tl) := rfl

lemma spacingOk_cons_wait (m : Nat) (tl : List Ev) :
    spacingOk (Ev.wait m :: tl) = spacingOk tl := rfl

lemma headIsWait10_cons_wait (m : Nat) (tl : List Ev) :
    headIsWait10 (Ev.wait m :: tl) = (m == 10) := rfl

lemma spacingOk_blocks (rng : Nat → Nat) (sendFails : Nat → Bool)
    (l : List Nat) :
    spacingOk (((l.map (emitIter rng sendFails)).flatten) ++ [Ev.wait 500])
      = true := by
  induction l with
  | nil => rfl
  | cons i l ih =>
    cases hf : sendFails i with
    | true =>
      have hblock : emitIter rng sendFails i
          = [Ev.sendErr "/random" (randint 1 100 (rng i))] := by
        simp [emitIter, hf]
      simp only [List.map_cons, List.flatten_cons, List.append_assoc, hblock,
        List.cons_append, List.nil_append]
      rw [spacingOk_cons_sendErr, headIsWait10_blocks rng sendFails l, ih]
      rfl
    | false =>
      have hblock : emitIter rng sendFails i
          = [Ev.sendOk "/random" (randint 1 100 (rng i)), Ev.wait 10] := by
        simp [emitIter, hf]
      simp only [List.map_cons, List.flatten_cons, List.append_assoc, hblock,
        List.cons_append, List.nil_append]
      rw [spacingOk_cons_sendOk, headIsWait10_cons_wait, spacingOk_cons_wait, ih]
      rfl

lemma spacingOk_emitterTrace (n : Nat) (rng : Nat → Nat)
    (sendFails : Nat → Bool) :
    spacingOk (emitterTrace n rng sendFails) = true := by
  unfold emitterTrace
  exact spacingOk_blocks rng sendFails (List.range n)

lemma headIsWait10_getElem (tl : List Ev) (h : headIsWait10 tl = true) :
    tl[0]? = some (Ev.wait 10) := by
  cases tl with
  | nil => simp [headIsWait10] at h
  | cons e tl =>
    cases e with
    | sendOk r v => simp [headIsWait10] at h
    | sendErr r v => simp [headIsWait10] at h
    | wait m =>
      have : m = 10 := by simpa [headIsWait10] using h
      simp [this]

lemma headIsWait10_getElem_ne (tl : List Ev) (h : headIsWait10 tl = false) :
    tl[0]? ≠ some (Ev.wait 10) := by
  cases tl with
  | nil => simp
  | cons e tl =>
    cases e with
    | sendOk r v => simp
    | sendErr r v => simp
    | wait m =>
      have : ¬ m = 10 := by simpa [headIsWait10] using h
      simp [this]

lemma spacing_after_sendOk (tr : List Ev) (h : spacingOk tr = true) :
    ∀ j r v, tr[j]? = some (Ev.sendOk r v) → tr[j + 1]? = some (Ev.wait 10) := by
  induction tr with
  | nil => intro j r v hj; simp at hj
  | cons e tl ih =>
    intro j r v hj
    cases j with
    | zero =>
      simp only [List.getElem?_cons_zero, Option.some_inj] at hj
      subst hj
      have hw : headIsWait10 tl = true := by
        simp [spacingOk] at h; tauto
      simpa using headIsWait10_getElem tl hw
    | succ j =>
      have htl : spacingOk tl = true := spacingOk_tail e tl h
      simp only [List.getElem?_cons_succ] at hj ⊢
      exact ih htl j r v hj

lemma spacing_after_sendErr (tr : List Ev) (h : spacingOk tr = true) :
    ∀ j r v, tr[j]? = some (Ev.sendErr r v) → tr[j + 1]? ≠ some (Ev.wait 10) := by
  induction tr with
  | nil => intro j r v hj; simp at hj
  | cons e tl ih =>
    intro j r v hj
    cases j with
    | zero =>
      simp only [List.getElem?_cons_zero, Option.some_inj] at hj
      subst hj
      have hw : headIsWait10 tl = false := by
        simp [spacingOk] at h; tauto
      simpa using headIsWait10_getElem_ne tl hw
    | succ j =>
      have htl : spacingOk tl = true := spacingOk_tail e tl h
      simp only [List.getElem?_cons_succ] at hj ⊢
      exact ih htl j r v hj

lemma emitterTrace_getLast (n : Nat) (rng : Nat → Nat)
    (sendFails : Nat → Bool) :
    (emitterTrace n rng sendFails).getLast? = some (Ev.wait 500) := by
  unfold emitterTrace
  rw [List.getLast?_append]
  rfl

lemma rowCells_length (c : Config) (ts : String) (d : List (String × α)) :
    (rowCells c ts d).length = (fieldnames c).length := by
  simp [rowCells]

lemma settingsDict_nil (c : Config) : settingsDict c ([] : List α) = [] := by
  simp [settingsDict, pyDict]

lemma rowCells_nil (c : Config) (ts : String)
    (hts : "Timestamp" ∉ c.synth_params) :
    rowCells c ts ([] : List (String × α))
      = Cell.str ts :: List.replicate c.synth_params.length Cell.empty := by
  unfold rowCells fieldnames
  simp only [List.map_cons]
  have hmap : ∀ f ∈ c.synth_params,
      (match pyGet ([] : List (String × α)) f with
       | some v => Cell.val v
       | none => if f = "Timestamp" then Cell.str ts else Cell.empty)
      = Cell.empty := by
    intro f hf
    show (if f = "Timestamp" then Cell.str ts else Cell.empty) = Cell.empty
    rw [if_neg (fun he => hts (by rw [← he]; exact hf))]
  rw [List.map_congr_left hmap]
  have h0 : pyGet ([] : List (String × α)) "Timestamp" = none := rfl
  simp [h0]

/-! ## Concrete fixtures used to instantiate the theorems -/

/-- A concrete configuration (two parameters, three emissions). -/
def cFix : Config :=
  { synth_params := ["freq", "amp"]
  , max_ip := "127.0.0.1"
  , max_send_port := 7000
  , max_receive_port := 7001
  , max_randomizations := 3
  , log_file_path := "log.csv" }

/-- A concrete entropy stream (iteration i draws 41 + i). -/
def rngFix : Nat → Nat := fun i => 41 + i

/-- Failure pattern in which every send succeeds. -/
def noFail : Nat → Bool := fun _ => false

/-- Failure pattern in which every send raises. -/
def allFail : Nat → Bool := fun _ => true

/-- The concrete configuration with a single emission. -/
def cOne : Config := { cFix with max_randomizations := 1 }

/-- The concrete configuration with a negative emission count. -/
def cNeg : Config := { cFix with max_randomizations := -5 }

/-! ## Claim theorems -/

/-- C1: for an inbound /synth_settings message whose argument count after
the leading framing flag equals the configured parameter count (the
configured names being pairwise distinct and none of them the reserved
header column name "Timestamp"), the logged record's keys equal the
configured parameter-name sequence in order, its values are the positional
zip of the arguments from index 1 onward with that sequence (the first
argument is discarded), and the appended CSV row is the timestamp followed
by exactly those values. -/
theorem C1_matched_message_logged (c : Config) (args : List α) (ts : String)
    (file : List (Row α))
    (hnd : c.synth_params.Nodup) (hts : "Timestamp" ∉ c.synth_params)
    (hlen : (args.drop 1).length = c.synth_params.length) :
    keysOf (settingsDict c args) = c.synth_params
    ∧ valsOf (settingsDict c args) = args.drop 1
    ∧ fileAfter c "/synth_settings" args ts true file
        = (if file.isEmpty then file ++ [Row.header (fieldnames c)] else file)
          ++ [Row.data (Cell.str ts :: (args.drop 1).map Cell.val)] := by
  have hz := settingsDict_eq_zip c args hnd
  refine ⟨?_, ?_, ?_⟩
  · rw [hz, keysOf_zip, hlen, List.take_length]
  · rw [hz, valsOf_zip, ← hlen, List.take_length]
  · rw [fileAfter_ioOk]
    unfold logAppend
    rw [hz, rowCells_of_zip c ts (args.drop 1) hnd hts hlen]

/-- C1 witness: a two-parameter configuration receiving [flag, 440, 80]. -/
theorem C1_matched_message_logged_witness :
    keysOf (settingsDict cFix ([9, 440, 80] : List Nat)) = cFix.synth_params
    ∧ valsOf (settingsDict cFix ([9, 440, 80] : List Nat)) = [440, 80] := by
  have h := C1_matched_message_logged cFix ([9, 440, 80] : List Nat)
    "2024-01-01 00:00:00" [] (by decide) (by decide) (by decide)
  exact ⟨h.1, h.2.1⟩

/-- C2: with a nonnegative configured max_randomizations N, the emitter
loop performs exactly N send operations (whatever the failure pattern),
each to route "/random" with an integer value in [1, 100], and no send
beyond the Nth occurs. -/
theorem C2_emitter_sends_exactly_N (c : Config) (rng : Nat → Nat)
    (sendFails : Nat → Bool) (h : 0 ≤ c.max_randomizations) :
    ((sendAttempts (mainTrace c rng sendFails)).length : Int)
        = c.max_randomizations
    ∧ ∀ p ∈ sendAttempts (mainTrace c rng sendFails),
        p.1 = "/random" ∧ 1 ≤ p.2 ∧ p.2 ≤ 100 := by
  constructor
  · unfold mainTrace
    rw [sendAttempts_emitterTrace, List.length_map, List.length_range]
    exact_mod_cast Int.toNat_of_nonneg h
  · intro p hp
    unfold mainTrace at hp
    rw [sendAttempts_emitterTrace] at hp
    simp only [List.mem_map] at hp
    obtain ⟨i, _, hpi⟩ := hp
    subst hpi
    exact ⟨rfl, (randint_bounds (rng i)).1, (randint_bounds (rng i)).2⟩

/-- C2 witness: three sends for the concrete three-emission config. -/
theorem C2_emitter_sends_exactly_N_witness :
    ((sendAttempts (mainTrace cFix rngFix noFail)).length : Int)
      = cFix.max_randomizations :=
  (C2_emitter_sends_exactly_N cFix rngFix noFail (by decide)).1

/-- C3: starting from an empty log file, a nonempty sequence of
successful append operations produces the header row (Timestamp followed
by the configured parameter names, in order) exactly once, as the first
line, followed by one data row per append; every line has exactly as many
cells as the header; and appending to any nonempty file never writes a
header, only the one data row. -/
theorem C3_header_written_once (c : Config) (items : List (String × List α))
    (hne : items ≠ []) :
    runAppends c items ([] : List (Row α))
        = Row.header (fieldnames c) :: items.map (dataRowOf c)
    ∧ (runAppends c items ([] : List (Row α))).countP isHeader = 1
    ∧ (∀ r ∈ runAppends c items ([] : List (Row α)),
        rowLen r = (fieldnames c).length)
    ∧ (∀ file : List (Row α), file ≠ [] → ∀ p : String × List α,
        fileAfter c "/synth_settings" p.2 p.1 true file
          = file ++ [dataRowOf c p]) := by
  obtain ⟨p, items, rfl⟩ : ∃ q qs, items = q :: qs := by
    cases items with
    | nil => exact absurd rfl hne
    | cons q qs => exact ⟨q, qs, rfl⟩
  have hrun := runAppends_from_empty c p items
  refine ⟨hrun, ?_, ?_, ?_⟩
  · rw [hrun]
    rw [List.countP_cons_of_pos isHeader _ (by rfl)]
    have hzero : ((p :: items).map (dataRowOf c)).countP isHeader = 0 := by
      rw [List.countP_eq_zero]
      intro r hr
      obtain ⟨q, _, rfl⟩ := List.mem_map.mp hr
      simp [dataRowOf, isHeader]
    rw [hzero]
  · rw [hrun]
    intro r hr
    rcases List.mem_cons.mp hr with h1 | h2
    · subst h1; rfl
    · obtain ⟨q, _, rfl⟩ := List.mem_map.mp h2
      show (rowCells c q.1 (settingsDict c q.2)).length = (fieldnames c).length
      exact rowCells_length c q.1 _
  · intro file hfile q
    rw [fileAfter_ioOk, logAppend_of_ne_nil c q.1 _ file hfile]
    rfl

/-- C3 witness: one append starting from the empty file. -/
theorem C3_header_written_once_witness :
    runAppends cFix [("2024-01-01 00:00:00", ([9, 440, 80] : List Nat))] []
      = Row.header (fieldnames cFix)
        :: [dataRowOf cFix ("2024-01-01 00:00:00", [9, 440, 80])] := by
  have h := C3_header_written_once cFix
    [("2024-01-01 00:00:00", ([9, 440, 80] : List Nat))] (by simp)
  simpa using h.1

/-- C4: when the remaining-argument count differs from the configured
parameter count (names distinct), the record pairs names with values up to
the shorter of the two lengths — its keys are the first min(k, m)
configured names in order and its values the first min(k, m) remaining
arguments — and the handler still returns normally, raising nothing. -/
theorem C4_length_mismatch_truncates (c : Config) (args : List α)
    (ts : String) (ioOk : Bool) (file : List (Row α))
    (hnd : c.synth_params.Nodup)
    (_hmis : (args.drop 1).length ≠ c.synth_params.length) :
    keysOf (settingsDict c args)
        = c.synth_params.take (min c.synth_params.length (args.drop 1).length)
    ∧ valsOf (settingsDict c args)
        = (args.drop 1).take (min c.synth_params.length (args.drop 1).length)
    ∧ ∃ f out, log_synth_settings c "/synth_settings" args ts ioOk file
        = HandlerResult.returned f out := by
  have hz := settingsDict_eq_zip c args hnd
  refine ⟨?_, ?_, ?_⟩
  · rw [hz, keysOf_zip, List.take_eq_take]
    omega
  · rw [hz, valsOf_zip, List.take_eq_take]
    omega
  · cases ioOk with
    | true => exact ⟨_, _, rfl⟩
    | false => exact ⟨_, _, rfl⟩

/-- C4 witness: one remaining argument against two configured names. -/
theorem C4_length_mismatch_truncates_witness :
    keysOf (settingsDict cFix ([9, 440] : List Nat)) = ["freq"]
    ∧ valsOf (settingsDict cFix ([9, 440] : List Nat)) = [440] := by
  have h := C4_length_mismatch_truncates cFix ([9, 440] : List Nat)
    "2024-01-01 00:00:00" true [] (by decide) (by decide)
  exact ⟨by rw [h.1]; decide, by rw [h.2.1]; rfl⟩

/-- C5: an I/O failure while handling an inbound message is contained:
the handler returns normally (no exception reaches the dispatcher), the
fault is reported and that single record dropped (file unchanged), and a
subsequent message handled with working I/O is logged successfully, its
data row appended at the end of the file. -/
theorem C5_io_failure_recoverable (c : Config) (file : List (Row α))
    (args1 : List α) (ts1 : String) (args2 : List α) (ts2 : String) :
    log_synth_settings c "/synth_settings" args1 ts1 false file
        = HandlerResult.returned file LogOutcome.dropped
    ∧ outcomeAfter c "/synth_settings" args2 ts2 true
        (fileAfter c "/synth_settings" args1 ts1 false file) = LogOutcome.logged
    ∧ (fileAfter c "/synth_settings" args2 ts2 true
        (fileAfter c "/synth_settings" args1 ts1 false file)).getLast?
        = some (Row.data (rowCells c ts2 (settingsDict c args2))) := by
  refine ⟨rfl, rfl, ?_⟩
  rw [fileAfter_ioFail, fileAfter_ioOk]
  unfold logAppend
  rw [List.getLast?_append]
  rfl

/-- C6: per-send failures do not abort the emitter loop: for every
failure pattern, the loop still performs one send attempt per iteration
(all N of them), iteration i's attempt carries its scheduled random
value, and each failing iteration leaves a reported send-error event in
the trace. -/
theorem C6_send_failure_loop_continues (c : Config) (rng : Nat → Nat)
    (sendFails : Nat → Bool) :
    (sendAttempts (mainTrace c rng sendFails)).length
        = c.max_randomizations.toNat
    ∧ (∀ i, i < c.max_randomizations.toNat →
        (sendAttempts (mainTrace c rng sendFails))[i]?
          = some ("/random", randint 1 100 (rng i)))
    ∧ (∀ i, i < c.max_randomizations.toNat → sendFails i = true →
        Ev.sendErr "/random" (randint 1 100 (rng i))
          ∈ mainTrace c rng sendFails) := by
  refine ⟨?_, ?_, ?_⟩
  · unfold mainTrace
    rw [sendAttempts_emitterTrace, List.length_map, List.length_range]
  · intro i hi
    unfold mainTrace
    rw [sendAttempts_emitterTrace]
    rw [List.getElem?_map]
    simp [List.getElem?_range, hi]
  · intro i hi hf
    unfold mainTrace emitterTrace
    apply List.mem_append_left
    rw [List.mem_flatten]
    refine ⟨emitIter rng sendFails i,
      List.mem_map_of_mem _ (List.mem_range.mpr hi), ?_⟩
    simp [emitIter, hf]

/-- C6 witness: all three sends fail, yet three attempts occur and the
first failure is reported in the trace. -/
theorem C6_send_failure_loop_continues_witness :
    (sendAttempts (mainTrace cFix rngFix allFail)).length = 3
    ∧ Ev.sendErr "/random" 42 ∈ mainTrace cFix rngFix allFail := by
  have h := C6_send_failure_loop_continues cFix rngFix allFail
  refine ⟨by rw [h.1]; rfl, ?_⟩
  have h2 := h.2.2 0 (by decide) (by decide)
  have hv : randint 1 100 (rngFix 0) = 42 := by decide
  rw [hv] at h2
  exact h2

/-- C7 counterexample: in a run where the listener's bind fails, the
claim's required outcome (abort without normal completion, non-zero exit)
does not occur: the listener's daemon thread crashes, but the emitter
performs all three sends, the trace completes with the drain wait, and
the process exits 0. -/
theorem C7_counterexample :
    (runProcess cFix rngFix noFail false).exitCode = 0
    ∧ (runProcess cFix rngFix noFail false).listener
        = ThreadOutcome.crashed "OSError"
    ∧ (sendAttempts (runProcess cFix rngFix noFail false).trace).length = 3
    ∧ (runProcess cFix rngFix noFail false).trace.getLast?
        = some (Ev.wait 500) := by
  refine ⟨rfl, rfl, by decide, by decide⟩

/-- C7 amended: a listener bind failure is reported and re-raised inside
the background daemon thread, which crashes that thread only; the fault
never reaches the main path, the Command Emitter still performs all
max_randomizations send attempts, and the process completes normally with
exit status 0. -/
theorem C7_bind_failure_kills_listener_only (c : Config) (rng : Nat → Nat)
    (sendFails : Nat → Bool) :
    (runProcess c rng sendFails false).listener
        = ThreadOutcome.crashed "OSError"
    ∧ (runProcess c rng sendFails false).exitCode = 0
    ∧ (sendAttempts (runProcess c rng sendFails false).trace).length
        = c.max_randomizations.toNat := by
  refine ⟨rfl, rfl, ?_⟩
  show (sendAttempts (mainTrace c rng sendFails)).length = _
  unfold mainTrace
  rw [sendAttempts_emitterTrace, List.length_map, List.length_range]

/-- C8 counterexample: a one-iteration run whose send fails contains no
10 ms wait at all — the sleep sits inside the `try` after the send, so
the exception skips it — refuting the claim that the 10 ms wait occurs
whether or not the send succeeds; the trace is just the failed send and
the 500 ms drain. -/
theorem C8_counterexample :
    mainTrace cOne rngFix allFail = [Ev.sendErr "/random" 42, Ev.wait 500]
    ∧ Ev.wait 10 ∉ mainTrace cOne rngFix allFail := by
  refine ⟨by decide, by decide⟩

/-- C8 amended: in the main-path trace, every successful send is
immediately followed by the fixed 10 ms wait; a failed send is never
followed by the 10 ms wait (the failure skips that iteration's sleep);
and the final event of the main path is the fixed 500 ms drain wait
before normal termination. -/
theorem C8_waits (c : Config) (rng : Nat → Nat) (sendFails : Nat → Bool) :
    (∀ j r v, (mainTrace c rng sendFails)[j]? = some (Ev.sendOk r v) →
        (mainTrace c rng sendFails)[j + 1]? = some (Ev.wait 10))
    ∧ (∀ j r v, (mainTrace c rng sendFails)[j]? = some (Ev.sendErr r v) →
        (mainTrace c rng sendFails)[j + 1]? ≠ some (Ev.wait 10))
    ∧ (mainTrace c rng sendFails).getLast? = some (Ev.wait 500) := by
  have hs : spacingOk (mainTrace c rng sendFails) = true :=
    spacingOk_emitterTrace c.max_randomizations.toNat rng sendFails
  exact ⟨spacing_after_sendOk _ hs, spacing_after_sendErr _ hs,
    emitterTrace_getLast c.max_randomizations.toNat rng sendFails⟩

/-- C8 amended-claim witness: the first successful send of a concrete run
is followed by the 10 ms wait. -/
theorem C8_waits_witness :
    (mainTrace cFix rngFix noFail)[0]? = some (Ev.sendOk "/random" 42)
    ∧ (mainTrace cFix rngFix noFail)[1]? = some (Ev.wait 10) := by
  refine ⟨by decide, ?_⟩
  exact (C8_waits cFix rngFix noFail).1 0 "/random" 42 (by decide)

/-- C9: the handler returns normally on every input — any address, any
argument list (including the empty one outside the spec's length ≥ 1
contract), any I/O outcome — and a zero-argument message with working
I/O (and no parameter named "Timestamp") appends a data row holding only
the timestamp, with every parameter cell empty. -/
theorem C9_handler_total (c : Config) (address : String) (args : List α)
    (ts : String) (ioOk : Bool) (file : List (Row α))
    (hts : "Timestamp" ∉ c.synth_params) :
    (∃ f out, log_synth_settings c address args ts ioOk file
        = HandlerResult.returned f out)
    ∧ (args = [] → fileAfter c address args ts true file
        = (if file.isEmpty then file ++ [Row.header (fieldnames c)] else file)
          ++ [Row.data (Cell.str ts
              :: List.replicate c.synth_params.length (Cell.empty : Cell α))]) := by
  constructor
  · cases ioOk with
    | true => exact ⟨_, _, rfl⟩
    | false => exact ⟨_, _, rfl⟩
  · intro he
    subst he
    rw [fileAfter_ioOk]
    unfold logAppend
    rw [settingsDict_nil, rowCells_nil c ts hts]

/-- C9 witness: an empty-argument message on an unknown address appends a
timestamp-only row after the header. -/
theorem C9_handler_total_witness :
    fileAfter cFix "/other" ([] : List Nat) "2024-01-01 00:00:00" true []
      = [Row.header (fieldnames cFix),
         Row.data (Cell.str "2024-01-01 00:00:00"
           :: List.replicate 2 (Cell.empty : Cell Nat))] := by
  have h := (C9_handler_total cFix "/other" ([] : List Nat)
    "2024-01-01 00:00:00" true [] (by decide)).2 rfl
  simpa using h

/-- C10: with max_randomizations zero or negative, the emitter performs
no send at all, the main path still performs the 500 ms drain wait as its
only event, and the process terminates normally with exit status 0. -/
theorem C10_nonpositive_N_no_sends (c : Config) (rng : Nat → Nat)
    (sendFails : Nat → Bool) (h : c.max_randomizations ≤ 0) :
    sendAttempts (mainTrace c rng sendFails) = []
    ∧ mainTrace c rng sendFails = [Ev.wait 500]
    ∧ (runProcess c rng sendFails true).exitCode = 0 := by
  have hz : c.max_randomizations.toNat = 0 := Int.toNat_of_nonpos h
  unfold mainTrace emitterTrace
  rw [hz]
  exact ⟨rfl, rfl, rfl⟩

/-- C10 witness: a concrete configuration with max_randomizations = -5. -/
theorem C10_nonpositive_N_no_sends_witness :
    mainTrace cNeg rngFix noFail = [Ev.wait 500] :=
  (C10_nonpositive_N_no_sends cNeg rngFix noFail (by decide)).2.1
